import Mathlib

/-
Verification of the primitive_db CRUD engine.

This file gives a shallow embedding of the Python sources
(src/primitive_db/core.py, decorators.py, engine.py, parser.py,
constants.py) and proves properties of the embedded operations.

Modelling conventions:
* Python scalars that flow through the engine (int, str, bool) are the
  inductive `Value`; Python dicts and rows are insertion-ordered
  association lists; dict assignment replaces the value of an existing
  key in place and appends a fresh key at the end, exactly like CPython.
* Exceptions (`InvalidValue`, `KeyError`, `DBError`) become the `DBErr`
  sum, and fallible functions return `Except`.  Functions whose Python
  originals mutate an argument in place before possibly raising carry the
  state as it stands at the raise point inside the error, so that
  "no mutation on failure" is a provable statement rather than an
  artifact of purity.
* `int(...)`, `str.lower`, `str.strip`, `str.isidentifier` are modelled
  for the character ranges the program actually uses (ASCII plus the
  Cyrillic letters of the localized token sets).  CPython additionally
  accepts underscore digit separators in `int(...)` and non-ASCII
  identifiers; no claim depends on those.
-/

deriving instance DecidableEq for Except

namespace PrimitiveDB

/-- A Python scalar value as stored in rows and produced by the parser. -/
inductive Value where
  | vInt (n : Int)
  | vStr (s : String)
  | vBool (b : Bool)
deriving DecidableEq, Repr

/-- Errors of the project: `InvalidValue(value, message)` (the value is kept
in its `str(...)` rendering), Python's `KeyError(key)`, and the project's
`DBError(message)`. -/
inductive DBErr where
  | invalidValue (value : String) (msg : String)
  | keyError (key : String)
  | dbError (msg : String)
deriving DecidableEq, Repr

/-- A column of a table schema (`Column` dataclass in core.py). -/
structure Column where
  name : String
  type_name : String
deriving DecidableEq, Repr

/-- A row: an insertion-ordered mapping from column names to values. -/
abbrev Row := List (String × Value)

/-- The value of metadata's `"tables"` key: an insertion-ordered mapping
from table name to that table's column list. -/
abbrev TableMap := List (String × List Column)

/-- A raw metadata dict: `none` models a dict that has no `"tables"` key
(what `load_metadata` yields for a missing file), `some m` one that has it. -/
abbrev RawMeta := Option TableMap

/-- constants.py: `ID_COLUMN`. -/
def ID_COLUMN : String := "ID"

/-- constants.py: the keys of `SUPPORTED_TYPES`. -/
def isSupportedType (ty : String) : Bool :=
  ty == "int" || ty == "str" || ty == "bool"

/-- constants.py: `YES_ANSWERS`. -/
def YES_ANSWERS : List String := ["y", "yes", "д", "да"]

/-- Dict lookup on an association list (first binding wins; dicts built by
the modelled operations bind each key at most once). -/
def alistGet {α : Type} (m : List (String × α)) (k : String) : Option α :=
  (m.find? (fun p => p.1 == k)).map (fun p => p.2)

/-- Dict assignment: replace the value of an existing key in place,
append a missing key at the end (CPython dict semantics). -/
def alistSet {α : Type} : List (String × α) → String → α → List (String × α)
  | [], k, v => [(k, v)]
  | (k', v') :: rest, k, v =>
      if k' == k then (k, v) :: rest else (k', v') :: alistSet rest k v

/-- Model of `str.lower` for the characters the program uses: ASCII letters and
the Cyrillic range of the localized tokens. -/
def pyLowerChar (c : Char) : Char :=
  if 'A' ≤ c ∧ c ≤ 'Z' then Char.ofNat (c.toNat + 32)
  else if 0x410 ≤ c.toNat ∧ c.toNat ≤ 0x42F then Char.ofNat (c.toNat + 0x20)
  else if c.toNat = 0x401 then Char.ofNat 0x451
  else c

/-- Model of `str.lower` on a whole string. -/
def pyLower (s : String) : String := String.mk (s.data.map pyLowerChar)

/-- Python whitespace (the ASCII whitespace characters `strip` removes). -/
def isPyWs (c : Char) : Bool :=
  c == ' ' || c == '\t' || c == '\n' || c == '\r' ||
    c == Char.ofNat 0x0B || c == Char.ofNat 0x0C

/-- Model of `str.strip()` (whitespace on both ends). -/
def pyStrip (s : String) : String :=
  String.mk (((s.data.dropWhile isPyWs).reverse.dropWhile isPyWs).reverse)

/-- Model of `str.isidentifier()` restricted to ASCII identifiers. -/
def isPyIdentifier (s : String) : Bool :=
  match s.data with
  | [] => false
  | c :: rest =>
      (c.isAlpha || c == '_') && rest.all (fun d => d.isAlphanum || d == '_')

/-- Model of `str(value)`: the textual form of a scalar. -/
def pyStr : Value → String
  | .vStr s => s
  | .vInt n => toString n
  | .vBool b => if b then "True" else "False"

/-- Model of `repr(value)`: like `pyStr` but strings are quoted. -/
def pyRepr : Value → String
  | .vStr s => "\x27" ++ s ++ "\x27"
  | .vInt n => toString n
  | .vBool b => if b then "True" else "False"

/-- Model of `str` of a Python list of scalars. -/
def pyReprList (l : List Value) : String :=
  "[" ++ String.intercalate ", " (l.map pyRepr) ++ "]"

/-- Model of `str` of a Python dict mapping strings to scalars. -/
def pyReprClause (l : List (String × Value)) : String :=
  "\x7b" ++
    String.intercalate ", "
      (l.map (fun p => "\x27" ++ p.1 ++ "\x27: " ++ pyRepr p.2)) ++
  "\x7d"

/-- Accumulate a base-10 digit run into an integer. -/
def digitsToInt (ds : List Char) : Int :=
  ds.foldl (fun acc c => 10 * acc + ((c.toNat : Int) - 48)) 0

/-- Model of `int(s)` for a string: optional sign and nonempty ASCII digit run,
surrounding whitespace stripped. -/
def parseIntStr (s : String) : Option Int :=
  match (pyStrip s).data with
  | [] => none
  | c :: ds =>
      if c == '-' then
        if ds.length != 0 && ds.all Char.isDigit then
          some (-(digitsToInt ds))
        else none
      else if c == '+' then
        if ds.length != 0 && ds.all Char.isDigit then
          some (digitsToInt ds)
        else none
      else if (c :: ds).all Char.isDigit then some (digitsToInt (c :: ds))
      else none

/-- Model of `int(value)` on a scalar: ints pass through, bools collapse to 0/1
(bool is an int subtype in Python), strings are parsed. -/
def pyInt : Value → Option Int
  | .vInt n => some n
  | .vBool b => some (if b then 1 else 0)
  | .vStr s => parseIntStr s

/-- Python comparison `==` on the scalars in play: `bool` compares equal to the
corresponding `int`; `str` never equals a non-`str`. -/
def pyEq : Value → Value → Bool
  | .vInt a, .vInt b => a == b
  | .vStr a, .vStr b => a == b
  | .vBool a, .vBool b => a == b
  | .vInt a, .vBool b => a == (if b then (1 : Int) else 0)
  | .vBool a, .vInt b => (if a then (1 : Int) else 0) == b
  | _, _ => false

/-- Comparison `row.get(col) == val` with a missing key comparing unequal
(`None == v` is `False` for every scalar `v`). -/
def pyEqOpt (o : Option Value) (v : Value) : Bool :=
  match o with
  | some w => pyEq w v
  | none => false

/-- The truthy tokens of `_coerce_value` for `bool`. -/
def trueTokens : List String := ["true", "1", "yes", "y", "да", "д"]

/-- The falsy tokens of `_coerce_value` for `bool`. -/
def falseTokens : List String := ["false", "0", "no", "n", "нет", "н"]

/-- core.py `_coerce_value(type_name, raw)`. -/
def _coerce_value (type_name : String) (raw : Value) : Except DBErr Value :=
  if ¬ (isSupportedType type_name) then
    .error (.invalidValue type_name "Неподдерживаемый тип")
  else if type_name == "str" then
    .ok (.vStr (pyStr raw))
  else if type_name == "int" then
    match raw with
    | .vBool b => .error (.invalidValue (pyStr (.vBool b)) "Ожидалось int")
    | .vInt n => .ok (.vInt n)
    | .vStr s =>
        match parseIntStr s with
        | some n => .ok (.vInt n)
        | none => .error (.invalidValue s "Ожидалось int")
  else
    match raw with
    | .vBool b => .ok (.vBool b)
    | .vStr s =>
        let v := pyLower (pyStrip s)
        if trueTokens.contains v then .ok (.vBool true)
        else if falseTokens.contains v then .ok (.vBool false)
        else .error (.invalidValue s "Ожидалось bool")
    | .vInt n => .error (.invalidValue (pyStr (.vInt n)) "Ожидалось bool")

/-- core.py `_normalize_meta`: `meta.setdefault("tables", {})`. -/
def normalizeMeta (meta : RawMeta) : TableMap := meta.getD []

/-- Split a character list at the first `:`. -/
def splitAtColon : List Char → Option (List Char × List Char)
  | [] => none
  | c :: rest =>
      if c == ':' then some ([], rest)
      else (splitAtColon rest).map (fun p => (c :: p.1, p.2))

/-- Split a column spec at the first `:` (Python `spec.split(":", 1)`),
`none` when no separator is present. -/
def splitColon (s : String) : Option (String × String) :=
  (splitAtColon s.data).map (fun p => (String.mk p.1, String.mk p.2))

/-- core.py `_parse_column_spec(spec)`. -/
def _parse_column_spec (spec : String) : Except DBErr Column :=
  match splitColon spec with
  | none => .error (.invalidValue spec "Ожидалось столбец:тип")
  | some (name, type_name) =>
      if ¬ (isPyIdentifier name) then
        .error (.invalidValue name "Плохое имя столбца")
      else if name == ID_COLUMN then
        .error (.invalidValue name "Столбец ID задаётся автоматически")
      else if ¬ (isSupportedType type_name) then
        .error (.invalidValue type_name "Неподдерживаемый тип")
      else .ok ⟨name, type_name⟩

/-- core.py `_schema_columns(meta, table_name)`. -/
def _schema_columns (meta : RawMeta) (table_name : String) :
    Except DBErr (List Column) :=
  match alistGet (normalizeMeta meta) table_name with
  | none => .error (.keyError table_name)
  | some cols => .ok cols

/-- core.py `_schema_map(cols)`: the dict comprehension
`{c.name: c.type_name for c in cols}` (later duplicates overwrite). -/
def _schema_map (cols : List Column) : List (String × String) :=
  cols.foldl (fun m c => alistSet m c.name c.type_name) []

/-- Lookup `row.get(col)`. -/
def rowGet (r : Row) (k : String) : Option Value := alistGet r k

/-- Conversion `int(row.get(ID_COLUMN))` as used by update/delete when collecting
affected IDs: a missing key means `int(None)`, which raises, so `none`. -/
def rowIdOpt (r : Row) : Option Int := (rowGet r ID_COLUMN).bind pyInt

/-- Mutation `row.update(updates)`: apply dict assignments left to right. -/
def rowUpdate (r : Row) (updates : List (String × Value)) : Row :=
  updates.foldl (fun acc p => alistSet acc p.1 p.2) r

/-- The list comprehension `[_parse_column_spec(c) for c in columns]`:
parse each spec, stopping at the first failure. -/
def parseSpecs : List String → Except DBErr (List Column)
  | [] => .ok []
  | s :: rest =>
      match _parse_column_spec s with
      | .error e => .error e
      | .ok c => (parseSpecs rest).map (fun cs => c :: cs)

/-- core.py `create_table(metadata, table_name, columns)`.  The error also
carries the table map as the passed-in dict holds it when the exception
leaves the function (`_normalize_meta` has already run by then). -/
def create_table (meta : RawMeta) (table_name : String)
    (columns : List String) : Except (DBErr × TableMap) TableMap :=
  let m := normalizeMeta meta
  if ¬ (isPyIdentifier table_name) then
    .error (.invalidValue table_name "Плохое имя таблицы", m)
  else if (alistGet m table_name).isSome then
    .error (.dbError ("Таблица \"" ++ table_name ++ "\" уже существует."), m)
  else
    match parseSpecs columns with
    | .error e => .error (e, m)
    | .ok user_cols =>
        .ok (m ++ [(table_name, Column.mk ID_COLUMN "int" :: user_cols)])

/-- The `"tables"` value held by the metadata dict passed to
`create_table` once the call has returned or raised. -/
def create_table_metaAfter (meta : RawMeta) (table_name : String)
    (columns : List String) : RawMeta :=
  match create_table meta table_name columns with
  | .ok m => some m
  | .error (_, m) => some m

/-- core.py `drop_table(metadata, table_name)` without its
`confirm_action` wrapper (the inner function). -/
def drop_table (meta : RawMeta) (table_name : String) :
    Except (DBErr × TableMap) TableMap :=
  let m := normalizeMeta meta
  if (alistGet m table_name).isNone then
    .error (.dbError ("Таблица \"" ++ table_name ++ "\" не существует."), m)
  else .ok (m.filter (fun p => p.1 != table_name))

/-- Insertion sort of strings, modelling Python `sorted`. -/
def insertSorted (x : String) : List String → List String
  | [] => [x]
  | y :: ys => if x ≤ y then x :: y :: ys else y :: insertSorted x ys

/-- core.py `list_tables(metadata)`. -/
def list_tables (meta : RawMeta) : List String :=
  ((normalizeMeta meta).map (fun p => p.1)).foldr insertSorted []

/-- Conversion `int(row.get(ID_COLUMN, 0))` as attempted by `insert_record`'s
max-ID loop (missing key defaults to 0 and always parses). -/
def insertIdOf (r : Row) : Option Int :=
  pyInt ((rowGet r ID_COLUMN).getD (.vInt 0))

/-- The `for row in table_data` loop of `insert_record` computing
`max_id` (start 0, unparsable IDs skipped, missing IDs default to 0). -/
def maxIdFold (rows : List Row) : Int :=
  rows.foldl
    (fun m r =>
      match insertIdOf r with
      | some i => max m i
      | none => m)
    0

/-- The coercion loop of `insert_record`: coerce each value against its
positional column.  The final catch-all arm is unreachable because the
arity check precedes the loop (`zip(..., strict=True)`). -/
def coercePositional (schema : List (String × String)) :
    List Column → List Value → Except DBErr (List (String × Value))
  | [], [] => .ok []
  | c :: cs, v :: vs =>
      match _coerce_value ((alistGet schema c.name).getD "") v with
      | .error e => .error e
      | .ok cv => (coercePositional schema cs vs).map (fun rest => (c.name, cv) :: rest)
  | _, _ => .ok []

/-- Building the `record` dict of `insert_record` from the coerced
column/value pairs. -/
def buildRecord (pairs : List (String × Value)) : Row :=
  pairs.foldl (fun r p => alistSet r p.1 p.2) []

/-- core.py `insert_record(metadata, table_name, values, table_data)`.
The error carries the row list as it stands at the raise point (every
raise precedes the `table_data.append`). -/
def insert_record (meta : RawMeta) (table_name : String)
    (values : List Value) (rows : List Row) :
    Except (DBErr × List Row) (List Row × Int) :=
  match _schema_columns meta table_name with
  | .error e => .error (e, rows)
  | .ok cols =>
    let schema := _schema_map cols
    let user_cols := cols.filter (fun c => c.name != ID_COLUMN)
    if values.length != user_cols.length then
      .error (.invalidValue (pyReprList values)
                "Неверное количество значений для insert", rows)
    else
      match coercePositional schema user_cols values with
      | .error e => .error (e, rows)
      | .ok pairs =>
          let new_id := maxIdFold rows + 1
          let record := alistSet (buildRecord pairs) ID_COLUMN (.vInt new_id)
          .ok (rows ++ [record], new_id)

/-- core.py `select_records(metadata, table_name, table_data, where_clause)`.
`none` and `some []` both take the `if not where_clause` branch. -/
def select_records (meta : RawMeta) (table_name : String) (rows : List Row)
    (where_clause : Option (List (String × Value))) :
    Except DBErr (List Row) :=
  match _schema_columns meta table_name with
  | .error e => .error e
  | .ok cols =>
    match where_clause with
    | none => .ok rows
    | some [] => .ok rows
    | some [(col_name, raw_val)] =>
        let schema := _schema_map cols
        match alistGet schema col_name with
        | none => .error (.keyError col_name)
        | some ty =>
            match _coerce_value ty raw_val with
            | .error e => .error e
            | .ok val => .ok (rows.filter (fun r => pyEqOpt (rowGet r col_name) val))
    | some wc =>
        .error (.invalidValue (pyReprClause wc)
                  "where поддерживает одно условие col = value")

/-- The per-item body of `update_records`' coercion loop over the
set-clause: unknown key raises `KeyError`, otherwise the value is
coerced; processed in clause order. -/
def coerceSet (schema : List (String × String)) :
    List (String × Value) → Except DBErr (List (String × Value))
  | [] => .ok []
  | (k, v) :: rest =>
      match alistGet schema k with
      | none => .error (.keyError k)
      | some ty =>
          match _coerce_value ty v with
          | .error e => .error e
          | .ok cv => (coerceSet schema rest).map (fun cs => (k, cv) :: cs)

/-- The `for row in table_data` loop of `update_records`: matching rows
are updated in place, then their ID is appended when it parses. -/
def updateLoop (w_col : String) (w_val : Value)
    (cset : List (String × Value)) (rows : List Row) :
    List Row × List Int :=
  rows.foldl
    (fun acc r =>
      if pyEqOpt (rowGet r w_col) w_val then
        let r' := rowUpdate r cset
        match rowIdOpt r' with
        | some i => (acc.1 ++ [r'], acc.2 ++ [i])
        | none => (acc.1 ++ [r'], acc.2)
      else (acc.1 ++ [r], acc.2))
    ([], [])

/-- core.py `update_records(metadata, table_name, table_data, set_clause,
where_clause)`.  The error carries the row list at the raise point (all
raises precede the mutation loop). -/
def update_records (meta : RawMeta) (table_name : String) (rows : List Row)
    (set_clause : List (String × Value))
    (where_clause : List (String × Value)) :
    Except (DBErr × List Row) (List Row × List Int) :=
  match _schema_columns meta table_name with
  | .error e => .error (e, rows)
  | .ok cols =>
    let schema := _schema_map cols
    if set_clause.isEmpty then
      .error (.invalidValue (pyReprClause set_clause)
                "set не может быть пустым", rows)
    else if set_clause.any (fun p => p.1 == ID_COLUMN) then
      .error (.invalidValue ID_COLUMN "Нельзя обновлять ID", rows)
    else
      match where_clause with
      | [(w_col, w_raw)] =>
          match alistGet schema w_col with
          | none => .error (.keyError w_col, rows)
          | some w_ty =>
              match _coerce_value w_ty w_raw with
              | .error e => .error (e, rows)
              | .ok w_val =>
                  match coerceSet schema set_clause with
                  | .error e => .error (e, rows)
                  | .ok cset => .ok (updateLoop w_col w_val cset rows)
      | wc =>
          .error (.invalidValue (pyReprClause wc)
                    "where поддерживает одно условие col = value", rows)

/-- The `for row in table_data` loop of `delete_records`: matching rows
contribute their parsable ID, the others are kept in order. -/
def deleteLoop (w_col : String) (w_val : Value) (rows : List Row) :
    List Row × List Int :=
  rows.foldl
    (fun acc r =>
      if pyEqOpt (rowGet r w_col) w_val then
        match rowIdOpt r with
        | some i => (acc.1, acc.2 ++ [i])
        | none => acc
      else (acc.1 ++ [r], acc.2))
    ([], [])

/-- core.py `delete_records(metadata, table_name, table_data,
where_clause)` without its `confirm_action` wrapper. -/
def delete_records (meta : RawMeta) (table_name : String) (rows : List Row)
    (where_clause : List (String × Value)) :
    Except DBErr (List Row × List Int) :=
  match _schema_columns meta table_name with
  | .error e => .error e
  | .ok cols =>
    let schema := _schema_map cols
    match where_clause with
    | [(w_col, w_raw)] =>
        match alistGet schema w_col with
        | none => .error (.keyError w_col)
        | some w_ty =>
            match _coerce_value w_ty w_raw with
            | .error e => .error e
            | .ok w_val => .ok (deleteLoop w_col w_val rows)
    | wc =>
        .error (.invalidValue (pyReprClause wc)
                  "where поддерживает одно условие col = value")

/-- core.py `table_info(metadata, table_name, table_data)`:
(table, column summary, row count). -/
def table_info (meta : RawMeta) (table_name : String) (rows : List Row) :
    Except DBErr (String × String × Nat) :=
  match _schema_columns meta table_name with
  | .error e => .error e
  | .ok cols =>
      .ok (table_name,
           String.intercalate ", "
             (cols.map (fun c => c.name ++ ":" ++ c.type_name)),
           rows.length)

/-- decorators.py `handle_db_errors`: the message printed for each error
kind (`str(KeyError(k))` is the repr of the key, hence the quotes).
`FileNotFoundError` cannot occur in the model because the load helpers
substitute defaults for missing files themselves. -/
def render : DBErr → String
  | .keyError k => "Ошибка: Таблица или столбец \x27" ++ k ++ "\x27 не найден."
  | .invalidValue v _ => "Некорректное значение: " ++ v ++ ". Попробуйте снова."
  | .dbError m => "Ошибка: " ++ m

/-- decorators.py `confirm_action`: whether the typed answer grants the
dangerous operation. -/
def confirmYes (answer : String) : Bool :=
  YES_ANSWERS.contains (pyLower (pyStrip answer))

/-- The cache key built by the select branch of `run`:
(table, `str(where_clause)`, file mtime). -/
abbrev CacheKey := String × String × Nat

/-- Rendering `str(cmd.where_clause)` as used in the cache key. -/
def reprWhere : Option (List (String × Value)) → String
  | none => "None"
  | some l => pyReprClause l

/-- Cache lookup (`key in cache` / `cache[key]`). -/
def cacheGet (cache : List (CacheKey × List Row)) (k : CacheKey) :
    Option (List Row) :=
  (cache.find? (fun p => decide (p.1 = k))).map (fun p => p.2)

/-- decorators.py `create_cacher`'s inner `cache_result(key, value_func)`.
The returned triple is (result, cache afterwards, whether `value_func`
was invoked).  The source is generic in the key and value types; it is
instantiated here at the types the engine uses it with. -/
def cache_result (cache : List (CacheKey × List Row)) (key : CacheKey)
    (value_func : Unit → List Row) :
    List Row × List (CacheKey × List Row) × Bool :=
  match cacheGet cache key with
  | some v => (v, cache, false)
  | none =>
      let value := value_func ()
      (value, cache ++ [(key, value)], true)

/-- Running a sequence of cacher calls, keeping only the cache. -/
def runCalls (calls : List (CacheKey × (Unit → List Row)))
    (cache : List (CacheKey × List Row)) : List (CacheKey × List Row) :=
  calls.foldl (fun c kf => (cache_result c kf.1 kf.2).2.1) cache

/-- engine.py `_user_columns_for_table(meta, table_name)` (direct dict
access: an unknown table raises `KeyError`). -/
def _user_columns_for_table (m : TableMap) (table_name : String) :
    Except DBErr (List String) :=
  match alistGet m table_name with
  | none => .error (.keyError table_name)
  | some cols => .ok ((cols.map Column.name).filter (fun n => n != ID_COLUMN))

/-- First declared non-ID column that is absent from the key/value pairs
of a token-form insert (the column the loop raises on). -/
def firstMissing : List String → List (String × Value) → Option String
  | [], _ => none
  | c :: rest, kv =>
      if (alistGet kv c).isNone then some c else firstMissing rest kv

/-- The value-collection loop of `_handle_insert` for the `insert_kv`
command: every declared non-ID column must be present in the pairs. -/
def buildInsertValues (user_cols : List String)
    (kv : List (String × Value)) : Except DBErr (List Value) :=
  match user_cols with
  | [] => .ok []
  | c :: rest =>
      match alistGet kv c with
      | none => .error (.invalidValue c "Все поля обязательны")
      | some v => (buildInsertValues rest kv).map (fun vs => v :: vs)

/-- Drop the carried row list from an `insert_record` outcome (the engine
handler only re-raises the exception). -/
def projErr {α : Type} (r : Except (DBErr × List Row) α) : Except DBErr α :=
  match r with
  | .ok x => .ok x
  | .error (e, _) => .error e

/-- engine.py `_handle_insert` for the token-form `insert_kv` command,
up to and including the `insert_record` call: collect one value per
declared non-ID column from the pairs (extra pairs are ignored), then
insert positionally. -/
def _handle_insert_kv (m : TableMap) (table_name : String)
    (kv : List (String × Value)) (rows : List Row) :
    Except DBErr (List Row × Int) :=
  match _user_columns_for_table m table_name with
  | .error e => .error e
  | .ok user_cols =>
      match buildInsertValues user_cols kv with
      | .error e => .error e
      | .ok vals => projErr (insert_record (some m) table_name vals rows)

/-- The on-disk document of one table: its row list plus the file's
modification stamp (monotone counter standing in for the float mtime). -/
structure TableFile where
  rows : List Row
  mtime : Nat
deriving DecidableEq, Repr

/-- The state `run` works against: the metadata file, the per-table data
files, the select cache held by the loop's `cacher`, and a clock that
stamps saves. -/
structure DBState where
  meta : RawMeta
  files : List (String × TableFile)
  cache : List (CacheKey × List Row)
  clock : Nat
deriving DecidableEq, Repr

/-- A parsed command (parser.py `Command`). -/
structure Command where
  name : String
  table : Option String := none
  columns : Option (List String) := none
  values : Option (List Value) := none
  set_clause : Option (List (String × Value)) := none
  where_clause : Option (List (String × Value)) := none
deriving DecidableEq, Repr

/-- What one trip through `run`'s while-loop does after parsing: keep
looping, return (the `exit` command), or let an exception escape `run`
and kill the process. -/
inductive StepResult where
  | cont
  | halt
  | crash (e : DBErr)
deriving DecidableEq, Repr

/-- Whether a step outcome is an escaped exception. -/
def isCrash : StepResult → Bool
  | .crash _ => true
  | _ => false

/-- utils.py `load_table_data`: missing file means `[]`. -/
def loadRows (st : DBState) (t : String) : List Row :=
  match alistGet st.files t with
  | some f => f.rows
  | none => []

/-- Model of `os.path.getmtime(path) if path.exists() else 0.0`. -/
def fileMtime (st : DBState) (t : String) : Nat :=
  match alistGet st.files t with
  | some f => f.mtime
  | none => 0

/-- utils.py `save_table_data`: write the rows, refreshing the mtime. -/
def saveRows (st : DBState) (t : String) (rows : List Row) : DBState :=
  { st with files := alistSet st.files t ⟨rows, st.clock⟩,
            clock := st.clock + 1 }

/-- utils.py `save_metadata`. -/
def saveMeta (st : DBState) (m : TableMap) : DBState :=
  { st with meta := some m }

/-- utils.py `delete_table_file`. -/
def deleteFile (st : DBState) (t : String) : DBState :=
  { st with files := st.files.filter (fun p => p.1 != t) }

/-- engine.py `print_help` (content abridged; only its presence matters). -/
def helpText : String := "***Операции с данными***"

/-- engine.py `_handle_create_table` behind `handle_db_errors`. -/
def handleCreateTable (st : DBState) (cmd : Command) :
    DBState × List String :=
  let t := cmd.table.getD ""
  match create_table (some (normalizeMeta st.meta)) t (cmd.columns.getD []) with
  | .error (e, _) => (st, [render e])
  | .ok m' =>
      let colsStr :=
        match alistGet m' t with
        | some cols =>
            String.intercalate ", "
              (cols.map (fun c => c.name ++ ":" ++ c.type_name))
        | none => ""
      (saveRows (saveMeta st m') t [],
       ["Таблица \"" ++ t ++ "\" успешно создана со столбцами: " ++ colsStr])

/-- engine.py `_handle_list_tables` behind `handle_db_errors`. -/
def handleListTables (st : DBState) : DBState × List String :=
  let tables := list_tables st.meta
  if tables.isEmpty then (st, ["Таблиц нет."])
  else (st, tables.map (fun t => "- " ++ t))

/-- engine.py `_handle_drop_table`: the confirmation gate sits inside
`core.drop_table`'s decorator; a declined answer aborts silently after
the decorator's notice. -/
def handleDropTable (answer : String) (st : DBState) (cmd : Command) :
    DBState × List String :=
  let t := cmd.table.getD ""
  if ¬ (confirmYes answer) then (st, ["Операция отменена."])
  else
    match drop_table st.meta t with
    | .error (e, _) => (st, [render e])
    | .ok m' =>
        (deleteFile (saveMeta st m') t,
         ["Таблица \"" ++ t ++ "\" успешно удалена."])

/-- engine.py `_handle_insert` behind `handle_db_errors` (both the
positional `insert` and the token-form `insert_kv`). -/
def handleInsert (st : DBState) (cmd : Command) : DBState × List String :=
  let t := cmd.table.getD ""
  let data := loadRows st t
  let m0 := normalizeMeta st.meta
  let outcome : Except DBErr (List Row × Int) :=
    if cmd.name == "insert_kv" then
      _handle_insert_kv m0 t (cmd.set_clause.getD []) data
    else projErr (insert_record (some m0) t (cmd.values.getD []) data)
  match outcome with
  | .error e => (st, [render e])
  | .ok (data', new_id) =>
      (saveRows st t data',
       ["Запись с ID=" ++ toString new_id ++
        " успешно добавлена в таблицу \"" ++ t ++ "\"."])

/-- engine.py `_handle_update` behind `handle_db_errors`. -/
def handleUpdate (st : DBState) (cmd : Command) : DBState × List String :=
  let t := cmd.table.getD ""
  let data := loadRows st t
  match update_records st.meta t data (cmd.set_clause.getD [])
          (cmd.where_clause.getD []) with
  | .error (e, _) => (st, [render e])
  | .ok (data', ids) =>
      (saveRows st t data',
       if ids.length = 1 then
         ["Запись с ID=" ++ toString (ids.getD 0 0) ++ " в таблице \"" ++ t ++
          "\" успешно обновлена."]
       else ["Обновлено записей: " ++ toString ids.length ++ "."])

/-- engine.py `_handle_delete`: confirmation gate inside
`core.delete_records`' decorator, then `handle_db_errors`. -/
def handleDelete (answer : String) (st : DBState) (cmd : Command) :
    DBState × List String :=
  let t := cmd.table.getD ""
  if ¬ (confirmYes answer) then (st, ["Операция отменена."])
  else
    match delete_records st.meta t (loadRows st t) (cmd.where_clause.getD []) with
    | .error e => (st, [render e])
    | .ok (kept, ids) =>
        (saveRows st t kept,
         if ids.length = 1 then
           ["Запись с ID=" ++ toString (ids.getD 0 0) ++
            " успешно удалена из таблицы \"" ++ t ++ "\"."]
         else ["Удалено записей: " ++ toString ids.length ++ "."])

/-- engine.py `_handle_info` behind `handle_db_errors`. -/
def handleInfo (st : DBState) (cmd : Command) : DBState × List String :=
  let t := cmd.table.getD ""
  match table_info st.meta t (loadRows st t) with
  | .error e => (st, [render e])
  | .ok (tn, colsStr, count) =>
      (st, ["Таблица: " ++ tn, "Столбцы: " ++ colsStr,
            "Количество записей: " ++ toString count])

/-- A tiny stand-in for the PrettyTable rendering (content cosmetic). -/
def renderTable (names : List String) (rows : List Row) : String :=
  String.intercalate "\n"
    (String.intercalate " | " names ::
      rows.map (fun r =>
        String.intercalate " | "
          (names.map (fun c => ((rowGet r c).map pyStr).getD "None"))))

/-- The tail of `run`'s select branch after the rows are known: load the
metadata again, fetch the column names (an unknown table raises here,
uncaught), and print.  -/
def renderSelectOut (st : DBState) (t : String) (rows : List Row) :
    DBState × List String × StepResult :=
  match alistGet (normalizeMeta st.meta) t with
  | none => (st, [], .crash (.keyError t))
  | some cols =>
      let names := cols.map Column.name
      if rows.isEmpty then (st, ["Записей нет."], .cont)
      else (st, [renderTable names rows], .cont)

/-- Package a wrapped handler's outcome as a continuing loop step. -/
def contOf (p : DBState × List String) : DBState × List String × StepResult :=
  (p.1, p.2, .cont)

/-- One dispatch of `run`'s while-loop body on an already-parsed command.
`answer` is the reply any confirmation prompt would receive.  Every
handler except the select branch sits behind `handle_db_errors`, which
renders the error and lets the loop continue; the select branch is inlined
in `run` with no boundary, so an error raised while computing the rows
(or fetching the columns) escapes as `.crash`. -/
def execCommand (answer : String) (cmd : Command) (st : DBState) :
    DBState × List String × StepResult :=
  if cmd.name == "help" then (st, [helpText], .cont)
  else if cmd.name == "exit" then (st, [], .halt)
  else if cmd.name == "create_table" then contOf (handleCreateTable st cmd)
  else if cmd.name == "list_tables" then contOf (handleListTables st)
  else if cmd.name == "drop_table" then contOf (handleDropTable answer st cmd)
  else if cmd.name == "info" then contOf (handleInfo st cmd)
  else if cmd.name == "insert" || cmd.name == "insert_kv" then
    contOf (handleInsert st cmd)
  else if cmd.name == "update" then contOf (handleUpdate st cmd)
  else if cmd.name == "delete" then contOf (handleDelete answer st cmd)
  else if cmd.name == "select" then
    let t := cmd.table.getD ""
    let key : CacheKey := (t, reprWhere cmd.where_clause, fileMtime st t)
    match cacheGet st.cache key with
    | some rows => renderSelectOut st t rows
    | none =>
        match select_records st.meta t (loadRows st t) cmd.where_clause with
        | .error e => (st, [], .crash e)
        | .ok rows =>
            renderSelectOut { st with cache := st.cache ++ [(key, rows)] } t rows
  else (st, ["Функции " ++ cmd.name ++ " нет. Попробуйте снова."], .cont)

/-- A spec-side reading of the new-ID rule, following the claim's words:
one plus the maximum over the existing rows' IDs that parse as integers,
zero when none parse or the table is empty. -/
def specNewId (rows : List Row) : Int :=
  match rows.filterMap insertIdOf with
  | [] => 0 + 1
  | i :: is => is.foldl max i + 1

/-- Whether an operation outcome is an `InvalidValue` failure. -/
def isInvalidValueRes {σ α : Type} : Except (DBErr × σ) α → Bool
  | .error (.invalidValue _ _, _) => true
  | _ => false

/-- Whether a string list contains a repeated element. -/
def hasDupB : List String → Bool
  | [] => false
  | x :: xs => xs.contains x || hasDupB xs

/-- Fixture: a table `t` with schema `[ID:int, a:str]`. -/
def meta1 : RawMeta := some [("t", [⟨"ID", "int"⟩, ⟨"a", "str"⟩])]

/-- Fixture: a table `users` with schema `[ID:int, age:int, active:bool]`. -/
def meta4 : RawMeta :=
  some [("users", [⟨"ID", "int"⟩, ⟨"age", "int"⟩, ⟨"active", "bool"⟩])]

/-- Fixture row: ID 1, age 1, active true. -/
def r41 : Row := [("ID", .vInt 1), ("age", .vInt 1), ("active", .vBool true)]

/-- Fixture row: ID 2, age 2, active false. -/
def r42 : Row := [("ID", .vInt 2), ("age", .vInt 2), ("active", .vBool false)]

/-- Fixture engine state holding `users` with one row. -/
def st1 : DBState :=
  { meta := meta4, files := [("users", ⟨[r41], 5⟩)], cache := [], clock := 6 }

/-- Fixture command: `select from users where nosuch = 1`. -/
def cmdBadCol : Command :=
  { name := "select", table := some "users",
    where_clause := some [("nosuch", .vInt 1)] }

/-- Fixture command: `select from users where age = "abc"`. -/
def cmdBadVal : Command :=
  { name := "select", table := some "users",
    where_clause := some [("age", .vStr "abc")] }

theorem alistGet_nil {α : Type} (k : String) :
    alistGet ([] : List (String × α)) k = none := rfl

theorem alistGet_cons {α : Type} (k0 k : String) (v0 : α)
    (rest : List (String × α)) :
    alistGet ((k0, v0) :: rest) k =
      if k0 = k then some v0 else alistGet rest k := by
  by_cases h : k0 = k
  · simp [alistGet, List.find?_cons_of_pos, h]
  · simp only [alistGet, if_neg h]
    rw [List.find?_cons_of_neg]
    simpa using h

theorem alistGet_set_self {α : Type} (r : List (String × α)) (k : String)
    (v : α) : alistGet (alistSet r k v) k = some v := by
  induction r with
  | nil => simp [alistSet, alistGet_cons]
  | cons p rest ih =>
      obtain ⟨k', v'⟩ := p
      by_cases h : k' = k
      · subst h; simp [alistSet, alistGet_cons]
      · simp only [alistSet, beq_iff_eq, if_neg h, alistGet_cons, ih]

theorem alistGet_set_ne {α : Type} (r : List (String × α)) (k k' : String)
    (v : α) (h : k' ≠ k) : alistGet (alistSet r k' v) k = alistGet r k := by
  induction r with
  | nil => simp [alistSet, alistGet_cons, alistGet_nil, h]
  | cons p rest ih =>
      obtain ⟨k0, v0⟩ := p
      by_cases h0 : k0 = k'
      · subst h0
        simp [alistSet, alistGet_cons, h, Ne.symm h]
      · simp only [alistSet, beq_iff_eq, if_neg h0, alistGet_cons, ih]

theorem alistSet_of_not_mem {α : Type} (r : List (String × α)) (k : String)
    (v : α) (h : k ∉ r.map Prod.fst) : alistSet r k v = r ++ [(k, v)] := by
  induction r with
  | nil => simp [alistSet]
  | cons p rest ih =>
      obtain ⟨k0, v0⟩ := p
      simp only [List.map_cons, List.mem_cons, not_or] at h
      simp only [alistSet, beq_iff_eq, if_neg (Ne.symm h.1), List.cons_append,
        List.cons.injEq, true_and]
      exact ih h.2

theorem mem_keys_alistSet {α : Type} (r : List (String × α)) (k x : String)
    (v : α) (h : x ∈ (alistSet r k v).map Prod.fst) :
    x ∈ r.map Prod.fst ∨ x = k := by
  induction r with
  | nil => simpa [alistSet] using h
  | cons p rest ih =>
      obtain ⟨k0, v0⟩ := p
      by_cases h0 : k0 = k
      · subst h0
        simp only [alistSet, beq_iff_eq, if_pos, if_true, eq_self_iff_true,
          List.map_cons, List.mem_cons] at h
        rcases h with h | h
        · exact Or.inr h
        · exact Or.inl (List.mem_cons_of_mem _ h)
      · have h0' : (k0 == k) = false := by simpa using h0
        simp only [alistSet, h0', Bool.false_eq_true, if_false,
          List.map_cons, List.mem_cons] at h
        rcases h with h | h
        · exact Or.inl (by simp [h])
        · rcases ih h with h' | h'
          · exact Or.inl (List.mem_cons_of_mem _ h')
          · exact Or.inr h'

theorem alistGet_append_left {α : Type} (l l' : List (String × α))
    (k : String) (v : α) (h : alistGet l k = some v) :
    alistGet (l ++ l') k = some v := by
  induction l with
  | nil => simp [alistGet_nil] at h
  | cons p rest ih =>
      obtain ⟨k0, v0⟩ := p
      by_cases h0 : k0 = k
      · subst h0
        rw [alistGet_cons, if_pos rfl] at h
        rw [List.cons_append, alistGet_cons, if_pos rfl]
        exact h
      · rw [alistGet_cons, if_neg h0] at h
        rw [List.cons_append, alistGet_cons, if_neg h0]
        exact ih h

theorem alistGet_append_right {α : Type} (l l' : List (String × α))
    (k : String) (h : alistGet l k = none) :
    alistGet (l ++ l') k = alistGet l' k := by
  induction l with
  | nil => simp
  | cons p rest ih =>
      obtain ⟨k0, v0⟩ := p
      by_cases h0 : k0 = k
      · subst h0
        rw [alistGet_cons, if_pos rfl] at h
        exact absurd h (by simp)
      · rw [alistGet_cons, if_neg h0] at h
        rw [List.cons_append, alistGet_cons, if_neg h0]
        exact ih h

theorem maxIdFold_go (rows : List Row) (a : Int) :
    rows.foldl
      (fun m r =>
        match insertIdOf r with
        | some i => max m i
        | none => m) a =
      (rows.filterMap insertIdOf).foldl max a := by
  induction rows generalizing a with
  | nil => rfl
  | cons r rest ih =>
      cases h : insertIdOf r <;>
        simp [List.foldl_cons, List.filterMap_cons, h, ih]

theorem maxIdFold_eq (rows : List Row) :
    maxIdFold rows = (rows.filterMap insertIdOf).foldl max 0 := by
  simpa [maxIdFold] using maxIdFold_go rows 0

theorem deleteLoop_go (w_col : String) (w_val : Value) (rows : List Row)
    (a : List Row) (b : List Int) :
    rows.foldl
      (fun acc r =>
        if pyEqOpt (rowGet r w_col) w_val then
          match rowIdOpt r with
          | some i => (acc.1, acc.2 ++ [i])
          | none => acc
        else (acc.1 ++ [r], acc.2)) (a, b) =
      (a ++ rows.filter (fun r => ! pyEqOpt (rowGet r w_col) w_val),
       b ++ rows.filterMap
         (fun r => if pyEqOpt (rowGet r w_col) w_val then rowIdOpt r
                   else none)) := by
  induction rows generalizing a b with
  | nil => simp
  | cons r rest ih =>
      cases h : pyEqOpt (rowGet r w_col) w_val with
      | false =>
          simp [List.foldl_cons, List.filter_cons, List.filterMap_cons, h, ih]
      | true =>
          cases hid : rowIdOpt r <;>
            simp [List.foldl_cons, List.filter_cons, List.filterMap_cons,
              h, hid, ih]

theorem deleteLoop_eq (w_col : String) (w_val : Value) (rows : List Row) :
    deleteLoop w_col w_val rows =
      (rows.filter (fun r => ! pyEqOpt (rowGet r w_col) w_val),
       rows.filterMap
         (fun r => if pyEqOpt (rowGet r w_col) w_val then rowIdOpt r
                   else none)) := by
  simpa [deleteLoop] using deleteLoop_go w_col w_val rows [] []

theorem updateLoop_go (w_col : String) (w_val : Value)
    (cset : List (String × Value)) (rows : List Row)
    (a : List Row) (b : List Int) :
    rows.foldl
      (fun acc r =>
        if pyEqOpt (rowGet r w_col) w_val then
          let r' := rowUpdate r cset
          match rowIdOpt r' with
          | some i => (acc.1 ++ [r'], acc.2 ++ [i])
          | none => (acc.1 ++ [r'], acc.2)
        else (acc.1 ++ [r], acc.2)) (a, b) =
      (a ++ rows.map
         (fun r => if pyEqOpt (rowGet r w_col) w_val then rowUpdate r cset
                   else r),
       b ++ rows.filterMap
         (fun r => if pyEqOpt (rowGet r w_col) w_val then
                     rowIdOpt (rowUpdate r cset)
                   else none)) := by
  induction rows generalizing a b with
  | nil => simp
  | cons r rest ih =>
      cases h : pyEqOpt (rowGet r w_col) w_val with
      | false =>
          simp [List.foldl_cons, List.map_cons, List.filterMap_cons, h, ih]
      | true =>
          cases hid : rowIdOpt (rowUpdate r cset) <;>
            simp [List.foldl_cons, List.map_cons, List.filterMap_cons,
              h, hid, ih]

theorem updateLoop_eq (w_col : String) (w_val : Value)
    (cset : List (String × Value)) (rows : List Row) :
    updateLoop w_col w_val cset rows =
      (rows.map
         (fun r => if pyEqOpt (rowGet r w_col) w_val then rowUpdate r cset
                   else r),
       rows.filterMap
         (fun r => if pyEqOpt (rowGet r w_col) w_val then
                     rowIdOpt (rowUpdate r cset)
                   else none)) := by
  simpa [updateLoop] using updateLoop_go w_col w_val cset rows [] []

theorem rowUpdate_get_not_mem (updates : List (String × Value)) (r : Row)
    (k : String) (h : k ∉ updates.map Prod.fst) :
    rowGet (rowUpdate r updates) k = rowGet r k := by
  induction updates generalizing r with
  | nil => rfl
  | cons p rest ih =>
      obtain ⟨k0, v0⟩ := p
      simp only [List.map_cons, List.mem_cons, not_or] at h
      have step : rowUpdate r ((k0, v0) :: rest) =
          rowUpdate (alistSet r k0 v0) rest := by
        simp [rowUpdate, List.foldl_cons]
      rw [step, ih _ h.2]
      exact alistGet_set_ne r k k0 v0 (fun e => h.1 (e.symm))

theorem rowIdOpt_rowUpdate (updates : List (String × Value)) (r : Row)
    (h : ID_COLUMN ∉ updates.map Prod.fst) :
    rowIdOpt (rowUpdate r updates) = rowIdOpt r := by
  simp [rowIdOpt, rowUpdate_get_not_mem updates r ID_COLUMN h]

theorem coerceSet_keys (schema : List (String × String))
    (sc cs : List (String × Value)) (h : coerceSet schema sc = .ok cs) :
    cs.map Prod.fst = sc.map Prod.fst := by
  induction sc generalizing cs with
  | nil =>
      simp only [coerceSet, Except.ok.injEq] at h
      simp [← h]
  | cons p rest ih =>
      obtain ⟨k0, v0⟩ := p
      cases hk : alistGet schema k0 with
      | none => simp [coerceSet, hk] at h
      | some ty =>
          cases hcv : _coerce_value ty v0 with
          | error e => simp [coerceSet, hk, hcv] at h
          | ok cv =>
              cases hrest : coerceSet schema rest with
              | error e => simp [coerceSet, hk, hcv, hrest, Except.map] at h
              | ok crest =>
                  simp only [coerceSet, hk, hcv, hrest, Except.map,
                    Except.ok.injEq] at h
                  simp [← h, ih crest hrest]

theorem coerceSet_first_undeclared (schema : List (String × String))
    (pre : List (String × Value)) (k : String) (v : Value)
    (rest : List (String × Value))
    (hpre : ∀ p ∈ pre, ∃ ty cv, alistGet schema p.1 = some ty ∧
              _coerce_value ty p.2 = .ok cv)
    (hk : alistGet schema k = none) :
    coerceSet schema (pre ++ (k, v) :: rest) = .error (.keyError k) := by
  induction pre with
  | nil => simp [coerceSet, hk]
  | cons p0 ps ih =>
      obtain ⟨k0, v0⟩ := p0
      obtain ⟨ty, cv, hg, hcv⟩ := hpre (k0, v0) (List.mem_cons_self _ _)
      have hrest := ih (fun p hp => hpre p (List.mem_cons_of_mem _ hp))
      simp [coerceSet, hg, hcv, hrest, Except.map]

theorem parse_column_spec_ok (s : String) (c : Column)
    (h : _parse_column_spec s = .ok c) :
    isPyIdentifier c.name = true ∧ c.name ≠ ID_COLUMN := by
  unfold _parse_column_spec at h
  cases hs : splitColon s with
  | none => simp [hs] at h
  | some p =>
      obtain ⟨name, ty⟩ := p
      simp only [hs] at h
      split_ifs at h with h1 h2 h3
      cases h
      exact ⟨by simpa using h1, by simpa using h2⟩

theorem parseSpecs_ok (specs : List String) (ucols : List Column)
    (h : parseSpecs specs = .ok ucols) :
    ∀ c ∈ ucols, isPyIdentifier c.name = true ∧ c.name ≠ ID_COLUMN := by
  induction specs generalizing ucols with
  | nil =>
      simp only [parseSpecs, Except.ok.injEq] at h
      simp [← h]
  | cons s rest ih =>
      cases hc : _parse_column_spec s with
      | error e => simp [parseSpecs, hc] at h
      | ok c0 =>
          cases hrest : parseSpecs rest with
          | error e => simp [parseSpecs, hc, hrest, Except.map] at h
          | ok cs =>
              simp only [parseSpecs, hc, hrest, Except.map,
                Except.ok.injEq] at h
              intro c hmem
              rw [← h] at hmem
              rcases List.mem_cons.mp hmem with h' | h'
              · subst h'; exact parse_column_spec_ok s c hc
              · exact ih cs hrest c h'

theorem mem_keys_buildRecord_go (ps : List (String × Value)) (acc : Row)
    (x : String)
    (h : x ∈ (ps.foldl (fun r p => alistSet r p.1 p.2) acc).map Prod.fst) :
    x ∈ acc.map Prod.fst ∨ x ∈ ps.map Prod.fst := by
  induction ps generalizing acc with
  | nil => exact Or.inl h
  | cons p rest ih =>
      obtain ⟨k0, v0⟩ := p
      rw [List.foldl_cons] at h
      rcases ih (alistSet acc k0 v0) h with h' | h'
      · rcases mem_keys_alistSet acc k0 x v0 h' with h'' | h''
        · exact Or.inl h''
        · exact Or.inr (by simp [h''])
      · exact Or.inr (List.mem_cons_of_mem _ h')

theorem mem_keys_buildRecord (ps : List (String × Value)) (x : String)
    (h : x ∈ (buildRecord ps).map Prod.fst) : x ∈ ps.map Prod.fst := by
  rcases mem_keys_buildRecord_go ps [] x h with h' | h'
  · simp at h'
  · exact h'

theorem coercePositional_keys (schema : List (String × String))
    (cols : List Column) (vals : List Value) (ps : List (String × Value))
    (h : coercePositional schema cols vals = .ok ps) :
    ∀ x ∈ ps.map Prod.fst, x ∈ cols.map Column.name := by
  induction cols generalizing vals ps with
  | nil =>
      cases vals with
      | nil =>
          simp only [coercePositional, Except.ok.injEq] at h
          simp [← h]
      | cons v vs =>
          simp only [coercePositional, Except.ok.injEq] at h
          simp [← h]
  | cons c cs ih =>
      cases vals with
      | nil =>
          simp only [coercePositional, Except.ok.injEq] at h
          simp [← h]
      | cons v vs =>
          cases hcv : _coerce_value ((alistGet schema c.name).getD "") v with
          | error e => simp [coercePositional, hcv] at h
          | ok cv =>
              cases hrest : coercePositional schema cs vs with
              | error e => simp [coercePositional, hcv, hrest, Except.map] at h
              | ok rest =>
                  simp only [coercePositional, hcv, hrest, Except.map,
                    Except.ok.injEq] at h
                  intro x hx
                  rw [← h] at hx
                  simp only [List.map_cons, List.mem_cons] at hx ⊢
                  rcases hx with hx | hx
                  · exact Or.inl hx
                  · exact Or.inr (ih vs rest hrest x hx)

theorem map_name_filter (cols : List Column) :
    (cols.filter (fun c => c.name != ID_COLUMN)).map Column.name =
      (cols.map Column.name).filter (fun n => n != ID_COLUMN) := by
  induction cols with
  | nil => rfl
  | cons c rest ih =>
      by_cases h : c.name = ID_COLUMN <;>
        simp [List.filter_cons, h, ih]

theorem cacheGet_after_call (c : List (CacheKey × List Row)) (k k' : CacheKey)
    (f : Unit → List Row) (v : List Row) (h : cacheGet c k = some v) :
    cacheGet ((cache_result c k' f).2.1) k = some v := by
  unfold cache_result
  cases hk' : cacheGet c k' with
  | some w => exact h
  | none =>
      show cacheGet (c ++ [(k', f ())]) k = some v
      unfold cacheGet at h ⊢
      cases hf : c.find? (fun p => decide (p.1 = k)) with
      | none => simp [hf] at h
      | some p =>
          rw [List.find?_append, hf]
          simpa [hf] using h

theorem runCalls_preserved (calls : List (CacheKey × (Unit → List Row)))
    (c : List (CacheKey × List Row)) (k : CacheKey) (v : List Row)
    (h : cacheGet c k = some v) :
    cacheGet (runCalls calls c) k = some v := by
  induction calls generalizing c with
  | nil => exact h
  | cons kf rest ih =>
      exact ih _ (cacheGet_after_call c k kf.1 kf.2 v h)

theorem insert_record_ok_char (meta : RawMeta) (t : String)
    (values : List Value) (rows rows' : List Row) (nid : Int)
    (cols : List Column) (hc : _schema_columns meta t = .ok cols)
    (h : insert_record meta t values rows = .ok (rows', nid)) :
    nid = maxIdFold rows + 1 ∧
    ∃ rec, rows' = rows ++ [rec] ∧
      rowGet rec ID_COLUMN = some (.vInt nid) ∧
      ∀ x ∈ rec.map Prod.fst,
        x = ID_COLUMN ∨
          x ∈ (cols.map Column.name).filter (fun n => n != ID_COLUMN) := by
  simp only [insert_record] at h
  simp only [hc] at h
  split at h
  · exact absurd h (by simp)
  · split at h
    · exact absurd h (by simp)
    · rename_i pairs hp
      simp only [Except.ok.injEq, Prod.mk.injEq] at h
      obtain ⟨hrows, hnid⟩ := h
      refine ⟨hnid.symm, _, hrows.symm, ?_, ?_⟩
      · rw [← hnid]
        exact alistGet_set_self _ _ _
      · intro x hx
        rcases mem_keys_alistSet _ _ _ _ hx with h' | h'
        · right
          rw [← map_name_filter]
          exact coercePositional_keys _ _ _ _ hp x
            (mem_keys_buildRecord pairs x h')
        · exact Or.inl h'

theorem insert_record_error_rows (meta : RawMeta) (t : String)
    (values : List Value) (rows rows' : List Row) (e : DBErr)
    (h : insert_record meta t values rows = .error (e, rows')) :
    rows' = rows := by
  simp only [insert_record] at h
  split at h
  · simp at h; exact h.2.symm
  · split at h
    · simp at h; exact h.2.symm
    · split at h
      · simp at h; exact h.2.symm
      · exact absurd h (by simp)

theorem update_records_error_rows (meta : RawMeta) (t : String)
    (rows rows' : List Row) (sc wc : List (String × Value)) (e : DBErr)
    (h : update_records meta t rows sc wc = .error (e, rows')) :
    rows' = rows := by
  simp only [update_records] at h
  split at h
  · simp at h; exact h.2.symm
  · split at h
    · simp at h; exact h.2.symm
    · split at h
      · simp at h; exact h.2.symm
      · split at h
        · split at h
          · simp at h; exact h.2.symm
          · split at h
            · simp at h; exact h.2.symm
            · split at h
              · simp at h; exact h.2.symm
              · exact absurd h (by simp)
        · simp at h; exact h.2.symm

theorem create_table_error_meta (meta : RawMeta) (t : String)
    (specs : List String) (m' : TableMap) (e : DBErr)
    (h : create_table meta t specs = .error (e, m')) :
    m' = normalizeMeta meta := by
  simp only [create_table] at h
  split at h
  · simp at h; exact h.2.symm
  · split at h
    · simp at h; exact h.2.symm
    · split at h
      · simp at h; exact h.2.symm
      · exact absurd h (by simp)

theorem drop_table_error_meta (meta : RawMeta) (t : String)
    (m' : TableMap) (e : DBErr)
    (h : drop_table meta t = .error (e, m')) :
    m' = normalizeMeta meta := by
  simp only [drop_table] at h
  split at h
  · simp at h; exact h.2.symm
  · exact absurd h (by simp)

theorem filterMap_congr_mem {α β : Type} (l : List α) (f g : α → Option β)
    (h : ∀ x ∈ l, f x = g x) : l.filterMap f = l.filterMap g := by
  induction l with
  | nil => rfl
  | cons a rest ih =>
      rw [List.filterMap_cons, List.filterMap_cons,
        h a (List.mem_cons_self a rest),
        ih (fun x hx => h x (List.mem_cons_of_mem _ hx))]

theorem not_mem_keys_of_any_false (sc : List (String × Value))
    (h : sc.any (fun p => p.1 == ID_COLUMN) = false) :
    ID_COLUMN ∉ sc.map Prod.fst := by
  intro hm
  obtain ⟨p, hp, he⟩ := List.mem_map.mp hm
  have : sc.any (fun p => p.1 == ID_COLUMN) = true :=
    List.any_eq_true.mpr ⟨p, hp, by simp [he]⟩
  rw [h] at this
  exact absurd this (by simp)

theorem update_records_ok_char (meta : RawMeta) (t : String)
    (rows : List Row) (sc : List (String × Value)) (w_col : String)
    (w_raw : Value) (cols : List Column) (w_ty : String) (w_val : Value)
    (cset : List (String × Value))
    (hc : _schema_columns meta t = .ok cols)
    (hne : sc ≠ [])
    (hnid : sc.any (fun p => p.1 == ID_COLUMN) = false)
    (hw : alistGet (_schema_map cols) w_col = some w_ty)
    (hcv : _coerce_value w_ty w_raw = .ok w_val)
    (hcs : coerceSet (_schema_map cols) sc = .ok cset) :
    update_records meta t rows sc [(w_col, w_raw)] =
      .ok (rows.map
             (fun r => if pyEqOpt (rowGet r w_col) w_val then
                         rowUpdate r cset
                       else r),
           rows.filterMap
             (fun r => if pyEqOpt (rowGet r w_col) w_val then rowIdOpt r
                       else none)) := by
  have hempty : sc.isEmpty = false := by
    cases sc with
    | nil => exact absurd rfl hne
    | cons a l => rfl
  simp only [update_records, hc, hempty, Bool.false_eq_true, if_false,
    hnid, hw, hcv, hcs]
  rw [updateLoop_eq]
  have hmem : ID_COLUMN ∉ cset.map Prod.fst := by
    rw [coerceSet_keys _ _ _ hcs]
    exact not_mem_keys_of_any_false sc hnid
  have hcong : ∀ r ∈ rows,
      (if pyEqOpt (rowGet r w_col) w_val then
         rowIdOpt (rowUpdate r cset)
       else none) =
      (if pyEqOpt (rowGet r w_col) w_val then rowIdOpt r else none) := by
    intro r _
    by_cases hm : pyEqOpt (rowGet r w_col) w_val = true
    · simp [hm, rowIdOpt_rowUpdate cset r hmem]
    · simp [Bool.not_eq_true] at hm
      simp [hm]
  rw [filterMap_congr_mem rows _ _ hcong]

theorem buildInsertValues_missing (uc : List String)
    (kv : List (String × Value)) (c : String)
    (h : firstMissing uc kv = some c) :
    buildInsertValues uc kv = .error (.invalidValue c "Все поля обязательны") := by
  induction uc with
  | nil => simp [firstMissing] at h
  | cons c0 rest ih =>
      cases hk : alistGet kv c0 with
      | none =>
          have hcc : c0 = c := by simpa [firstMissing, hk] using h
          subst hcc
          simp [buildInsertValues, hk]
      | some v =>
          have h' : firstMissing rest kv = some c := by
            simpa [firstMissing, hk] using h
          simp [buildInsertValues, hk, ih h', Except.map]

theorem buildInsertValues_complete (uc : List String)
    (kv : List (String × Value)) (h : firstMissing uc kv = none) :
    buildInsertValues uc kv =
      .ok (uc.map (fun c => (alistGet kv c).getD (.vInt 0))) := by
  induction uc with
  | nil => simp [buildInsertValues]
  | cons c0 rest ih =>
      cases hk : alistGet kv c0 with
      | none => simp [firstMissing, hk] at h
      | some v =>
          have h' : firstMissing rest kv = none := by
            simpa [firstMissing, hk] using h
          simp [buildInsertValues, hk, ih h', Except.map]

/-- C2 counterexample: `create_table` accepts a spec list that repeats the
column name `a`, producing a schema whose column names are not pairwise
distinct (`[ID, a, a]`). -/
theorem create_table_duplicate_columns_accepted :
    create_table (some []) "users" ["a:int", "a:str"] =
      .ok [("users",
        [Column.mk "ID" "int", Column.mk "a" "int", Column.mk "a" "str"])] ∧
    hasDupB (([Column.mk "ID" "int", Column.mk "a" "int",
        Column.mk "a" "str"]).map Column.name) = true := by
  exact ⟨by rfl, by decide⟩

/-- C2 (amended): every table map produced by `create_table` maps the new
table to the auto-prepended `ID:int` column followed by the parsed user
columns; every user column name is a valid identifier distinct from the
reserved ID name (and `ID` itself is a valid identifier), and the schema's
column names are pairwise distinct provided the user spec names are
pairwise distinct — `create_table` itself accepts duplicated names. -/
theorem create_table_schema_valid (meta : RawMeta) (t : String)
    (specs : List String) (m' : TableMap)
    (h : create_table meta t specs = .ok m') :
    ∃ ucols, parseSpecs specs = .ok ucols ∧
      alistGet m' t = some (Column.mk ID_COLUMN "int" :: ucols) ∧
      isPyIdentifier ID_COLUMN = true ∧
      (∀ c ∈ ucols, isPyIdentifier c.name = true ∧ c.name ≠ ID_COLUMN) ∧
      ((ucols.map Column.name).Nodup →
        ((Column.mk ID_COLUMN "int" :: ucols).map Column.name).Nodup) := by
  simp only [create_table] at h
  split at h
  · exact absurd h (by simp)
  · split at h
    · exact absurd h (by simp)
    · split at h
      · exact absurd h (by simp)
      · rename_i hexists hparse ucols hspecs
        refine ⟨ucols, hspecs, ?_, by decide, parseSpecs_ok specs ucols hspecs, ?_⟩
        · simp only [Except.ok.injEq] at h
          rw [← h]
          have hnone : alistGet (normalizeMeta meta) t = none := by
            cases hg : alistGet (normalizeMeta meta) t with
            | none => rfl
            | some w => rw [hg] at hexists; simp at hexists
          rw [alistGet_append_right _ _ _ hnone, alistGet_cons, if_pos rfl]
        · intro hnd
          rw [List.map_cons, List.nodup_cons]
          refine ⟨?_, hnd⟩
          intro hm
          obtain ⟨c, hcmem, hcn⟩ := List.mem_map.mp hm
          exact absurd hcn ((parseSpecs_ok specs ucols hspecs c hcmem).2)

/-- C2 witness: applying the schema-validity theorem to a concrete
successful `create_table` call. -/
theorem create_table_schema_valid_witness :
    ∃ ucols, parseSpecs ["a:int", "b:str"] = .ok ucols ∧
      alistGet [("t", [Column.mk "ID" "int", Column.mk "a" "int",
          Column.mk "b" "str"])] "t" =
        some (Column.mk ID_COLUMN "int" :: ucols) ∧
      isPyIdentifier ID_COLUMN = true ∧
      (∀ c ∈ ucols, isPyIdentifier c.name = true ∧ c.name ≠ ID_COLUMN) ∧
      ((ucols.map Column.name).Nodup →
        ((Column.mk ID_COLUMN "int" :: ucols).map Column.name).Nodup) :=
  create_table_schema_valid (some []) "t" ["a:int", "b:str"]
    [("t", [Column.mk "ID" "int", Column.mk "a" "int", Column.mk "b" "str"])]
    (by rfl)

/-- C3 counterexample: with a single existing row whose ID is `-5`, the
code computes new ID `1` (its max-loop folds from 0), while the claim's
rule "1 + max over the existing rows' IDs that parse" yields `-4`. -/
theorem insert_negative_id_counterexample :
    insert_record meta1 "t" [.vStr "x"] [[("ID", .vInt (-5))]] =
      .ok ([[("ID", .vInt (-5))],
            [("a", .vStr "x"), ("ID", .vInt 1)]], 1) ∧
    specNewId [[("ID", .vInt (-5))]] = -4 ∧
    ((1 : Int) == (-4 : Int)) = false := by
  exact ⟨by rfl, by rfl, by rfl⟩

/-- C3 (amended): a successful `insert_record` returns the input rows with
exactly one appended record whose ID is one plus the maximum of 0 and the
existing rows' parsable IDs (so all-negative IDs still yield 1); in
particular successive inserts into the empty fixture table yield IDs
1, 2, 3, and after deleting the row with ID 2 the next insert yields 4 —
IDs are never reused. -/
theorem insert_record_id_allocation :
    (∀ meta t values rows rows' nid cols,
       _schema_columns meta t = .ok cols →
       insert_record meta t values rows = .ok (rows', nid) →
       nid = (rows.filterMap insertIdOf).foldl max 0 + 1 ∧
       ∃ rec, rows' = rows ++ [rec] ∧
         rowGet rec ID_COLUMN = some (.vInt nid)) ∧
    insert_record meta1 "t" [.vStr "x"] [] =
      .ok ([[("a", .vStr "x"), ("ID", .vInt 1)]], 1) ∧
    insert_record meta1 "t" [.vStr "y"]
        [[("a", .vStr "x"), ("ID", .vInt 1)]] =
      .ok ([[("a", .vStr "x"), ("ID", .vInt 1)],
            [("a", .vStr "y"), ("ID", .vInt 2)]], 2) ∧
    insert_record meta1 "t" [.vStr "z"]
        [[("a", .vStr "x"), ("ID", .vInt 1)],
         [("a", .vStr "y"), ("ID", .vInt 2)]] =
      .ok ([[("a", .vStr "x"), ("ID", .vInt 1)],
            [("a", .vStr "y"), ("ID", .vInt 2)],
            [("a", .vStr "z"), ("ID", .vInt 3)]], 3) ∧
    delete_records meta1 "t"
        [[("a", .vStr "x"), ("ID", .vInt 1)],
         [("a", .vStr "y"), ("ID", .vInt 2)],
         [("a", .vStr "z"), ("ID", .vInt 3)]] [("ID", .vInt 2)] =
      .ok ([[("a", .vStr "x"), ("ID", .vInt 1)],
            [("a", .vStr "z"), ("ID", .vInt 3)]], [2]) ∧
    insert_record meta1 "t" [.vStr "w"]
        [[("a", .vStr "x"), ("ID", .vInt 1)],
         [("a", .vStr "z"), ("ID", .vInt 3)]] =
      .ok ([[("a", .vStr "x"), ("ID", .vInt 1)],
            [("a", .vStr "z"), ("ID", .vInt 3)],
            [("a", .vStr "w"), ("ID", .vInt 4)]], 4) := by
  refine ⟨?_, by rfl, by rfl, by rfl, by rfl, by rfl⟩
  intro meta t values rows rows' nid cols hc h
  obtain ⟨hnid, rec, hrows, hid, _⟩ :=
    insert_record_ok_char meta t values rows rows' nid cols hc h
  exact ⟨by rw [hnid, maxIdFold_eq], rec, hrows, hid⟩

/-- C3 witness: the general ID rule applied to a concrete insert. -/
theorem insert_record_id_allocation_witness :
    1 = (([] : List Row).filterMap insertIdOf).foldl max 0 + 1 ∧
    ∃ rec, [[("a", Value.vStr "x"), ("ID", Value.vInt 1)]] =
        ([] : List Row) ++ [rec] ∧
      rowGet rec ID_COLUMN = some (.vInt 1) :=
  insert_record_id_allocation.1 meta1 "t" [.vStr "x"] []
    [[("a", .vStr "x"), ("ID", .vInt 1)]] 1
    [Column.mk "ID" "int", Column.mk "a" "str"] (by rfl) (by rfl)

/-- C4: `select_records` on a known table returns all rows in order when
no predicate is given; with a single-condition equality predicate over a
declared column it coerces the predicate value to the column's type and
returns exactly the rows whose value at that column compares equal, in
order — concretely, textual "1" matches the stored integer 1 on an int
column and textual "yes" matches `true` on a bool column. -/
theorem select_records_spec :
    (∀ meta t rows cols, _schema_columns meta t = .ok cols →
       select_records meta t rows none = .ok rows) ∧
    (∀ meta t rows cols w raw ty v,
       _schema_columns meta t = .ok cols →
       alistGet (_schema_map cols) w = some ty →
       _coerce_value ty raw = .ok v →
       select_records meta t rows (some [(w, raw)]) =
         .ok (rows.filter (fun r => pyEqOpt (rowGet r w) v))) ∧
    select_records meta4 "users" [r41, r42] (some [("age", .vStr "1")]) =
      .ok [r41] ∧
    select_records meta4 "users" [r41, r42]
        (some [("active", .vStr "yes")]) =
      .ok [r41] := by
  refine ⟨?_, ?_, by rfl, by rfl⟩
  · intro meta t rows cols hc
    simp [select_records, hc]
  · intro meta t rows cols w raw ty v hc hw hcv
    simp [select_records, hc, hw, hcv]

/-- C4 witness: the predicate case applied concretely — "1" on the int
column `age` matches the row storing integer 1. -/
theorem select_records_spec_witness :
    select_records meta4 "users" [r41, r42] (some [("age", .vStr "1")]) =
      .ok ([r41, r42].filter (fun r => pyEqOpt (rowGet r "age") (.vInt 1))) :=
  select_records_spec.2.1 meta4 "users" [r41, r42]
    [Column.mk "ID" "int", Column.mk "age" "int", Column.mk "active" "bool"]
    "age" (.vStr "1") "int" (.vInt 1) (by rfl) (by rfl) (by rfl)

/-- C5: `delete_records` with a single-condition equality predicate over a
declared column partitions the rows by coerced equality: it returns the
non-matching rows verbatim in their original relative order together with
the matching rows' parsable IDs in original row order (unparsable or
missing IDs are omitted). -/
theorem delete_records_spec (meta : RawMeta) (t : String) (rows : List Row)
    (cols : List Column) (w : String) (raw : Value) (ty : String)
    (v : Value) (hc : _schema_columns meta t = .ok cols)
    (hw : alistGet (_schema_map cols) w = some ty)
    (hcv : _coerce_value ty raw = .ok v) :
    delete_records meta t rows [(w, raw)] =
      .ok (rows.filter (fun r => ! pyEqOpt (rowGet r w) v),
           rows.filterMap
             (fun r => if pyEqOpt (rowGet r w) v then rowIdOpt r
                       else none)) := by
  simp [delete_records, hc, hw, hcv, deleteLoop_eq]

/-- C5 witness: deleting `ID = 2` from the two fixture rows keeps the
first row verbatim and reports `[2]`. -/
theorem delete_records_spec_witness :
    delete_records meta4 "users" [r41, r42] [("ID", .vInt 2)] =
      .ok ([r41, r42].filter
             (fun r => ! pyEqOpt (rowGet r "ID") (.vInt 2)),
           [r41, r42].filterMap
             (fun r => if pyEqOpt (rowGet r "ID") (.vInt 2) then rowIdOpt r
                       else none)) :=
  delete_records_spec meta4 "users" [r41, r42]
    [Column.mk "ID" "int", Column.mk "age" "int", Column.mk "active" "bool"]
    "ID" (.vInt 2) "int" (.vInt 2) (by rfl) (by rfl) (by rfl)

/-- C6 counterexample, three concrete refutations of the claim's error
promises.  (1) For every table: with an unknown table the empty
set-clause does not fail `InvalidValue` — the schema fetch raises
`KeyError` (NotFound) first.  (2) NotFound for any undeclared set-clause
column: with the undeclared column `zzz` in the set-clause the call fails
`InvalidValue("xyz")`, because the coercion loop hits the declared key
`age`'s bad value first — NotFound is never raised.  (3) Same with a
where-clause that is not a single condition: the where-length check fails
`InvalidValue` before the set-clause columns are ever examined. -/
theorem update_records_precedence_counterexample :
    (update_records none "t" [] [] [] = .error (.keyError "t", []) ∧
     isInvalidValueRes (update_records none "t" [] [] []) = false) ∧
    (alistGet (_schema_map [Column.mk "ID" "int", Column.mk "age" "int",
        Column.mk "active" "bool"]) "zzz" = none ∧
     update_records meta4 "users" [r41]
         [("age", .vStr "xyz"), ("zzz", .vInt 1)] [("ID", .vInt 1)] =
       .error (.invalidValue "xyz" "Ожидалось int", [r41])) ∧
    update_records meta4 "users" [r41] [("zzz", .vInt 1)] [] =
      .error (.invalidValue (pyReprClause [])
                "where поддерживает одно условие col = value", [r41]) := by
  exact ⟨⟨by rfl, by rfl⟩, ⟨by rfl, by rfl⟩, by rfl⟩

/-- C6 (amended): on a known table `update_records` fails `InvalidValue`
whenever the set-clause is empty or names the reserved ID column
(whatever the rows and where-clause); an unknown table fails NotFound
before those checks, and a where-clause that is not a single condition
fails `InvalidValue` before the set-clause columns are examined.  With a
single-condition where-clause over a declared column whose value coerces,
the set-clause is processed in order: an undeclared column fails NotFound
provided the values of the declared keys before it coerce (an earlier
non-coercible value fails `InvalidValue` instead, as the counterexample
shows), and when the whole clause validates, the coerced set-clause is
applied to every row matching the predicate and the affected rows'
parsable IDs are returned in row order. -/
theorem update_records_spec :
    (∀ meta t rows cols wc, _schema_columns meta t = .ok cols →
       update_records meta t rows [] wc =
         .error (.invalidValue (pyReprClause [])
                   "set не может быть пустым", rows)) ∧
    (∀ meta t rows cols sc wc, _schema_columns meta t = .ok cols →
       sc ≠ [] → sc.any (fun p => p.1 == ID_COLUMN) = true →
       update_records meta t rows sc wc =
         .error (.invalidValue ID_COLUMN "Нельзя обновлять ID", rows)) ∧
    (∀ meta t rows cols sc w raw, _schema_columns meta t = .ok cols →
       sc ≠ [] → sc.any (fun p => p.1 == ID_COLUMN) = false →
       alistGet (_schema_map cols) w = none →
       update_records meta t rows sc [(w, raw)] =
         .error (.keyError w, rows)) ∧
    (∀ meta t rows cols pre k v rest w raw ty wval,
       _schema_columns meta t = .ok cols →
       ((pre ++ (k, v) :: rest).any (fun p => p.1 == ID_COLUMN)) = false →
       alistGet (_schema_map cols) w = some ty →
       _coerce_value ty raw = .ok wval →
       (∀ p ∈ pre, ∃ ty' cv, alistGet (_schema_map cols) p.1 = some ty' ∧
          _coerce_value ty' p.2 = .ok cv) →
       alistGet (_schema_map cols) k = none →
       update_records meta t rows (pre ++ (k, v) :: rest) [(w, raw)] =
         .error (.keyError k, rows)) ∧
    (∀ meta t rows cols sc w raw ty v cset,
       _schema_columns meta t = .ok cols →
       sc ≠ [] → sc.any (fun p => p.1 == ID_COLUMN) = false →
       alistGet (_schema_map cols) w = some ty →
       _coerce_value ty raw = .ok v →
       coerceSet (_schema_map cols) sc = .ok cset →
       update_records meta t rows sc [(w, raw)] =
         .ok (rows.map
                (fun r => if pyEqOpt (rowGet r w) v then rowUpdate r cset
                          else r),
              rows.filterMap
                (fun r => if pyEqOpt (rowGet r w) v then rowIdOpt r
                          else none))) := by
  refine ⟨?_, ?_, ?_, ?_, ?_⟩
  · intro meta t rows cols wc hc
    simp [update_records, hc]
  · intro meta t rows cols sc wc hc hne hany
    have hempty : sc.isEmpty = false := by
      cases sc with
      | nil => exact absurd rfl hne
      | cons a l => rfl
    simp [update_records, hc, hempty, hany]
  · intro meta t rows cols sc w raw hc hne hany hw
    have hempty : sc.isEmpty = false := by
      cases sc with
      | nil => exact absurd rfl hne
      | cons a l => rfl
    simp [update_records, hc, hempty, hany, hw]
  · intro meta t rows cols pre k v rest w raw ty wval hc hany hw hcv hpre hk
    have hempty : (pre ++ (k, v) :: rest).isEmpty = false := by
      cases pre <;> rfl
    have hcs :=
      coerceSet_first_undeclared (_schema_map cols) pre k v rest hpre hk
    simp [update_records, hc, hempty, hany, hw, hcv, hcs]
  · intro meta t rows cols sc w raw ty v cset hc hne hany hw hcv hcs
    exact update_records_ok_char meta t rows sc w raw cols ty v cset
      hc hne hany hw hcv hcs

/-- C6 witness: `update users set age=9 where ID=1` on the fixture rows
updates exactly the matching row and reports `[1]`; and a set-clause
whose declared prefix (`active=true`) coerces but whose next key `zzz`
is undeclared fails NotFound on `zzz`. -/
theorem update_records_spec_witness :
    update_records meta4 "users" [r41, r42] [("age", .vInt 9)]
        [("ID", .vInt 1)] =
      .ok ([r41, r42].map
             (fun r => if pyEqOpt (rowGet r "ID") (.vInt 1) then
                         rowUpdate r [("age", .vInt 9)]
                       else r),
           [r41, r42].filterMap
             (fun r => if pyEqOpt (rowGet r "ID") (.vInt 1) then rowIdOpt r
                       else none)) ∧
    update_records meta4 "users" [r41]
        [("active", .vBool true), ("zzz", .vInt 1)] [("ID", .vInt 1)] =
      .error (.keyError "zzz", [r41]) :=
  ⟨update_records_spec.2.2.2.2 meta4 "users" [r41, r42]
    [Column.mk "ID" "int", Column.mk "age" "int", Column.mk "active" "bool"]
    [("age", .vInt 9)] "ID" (.vInt 1) "int" (.vInt 1) [("age", .vInt 9)]
    (by rfl) (by simp) (by rfl) (by rfl) (by rfl) (by rfl),
   update_records_spec.2.2.2.1 meta4 "users" [r41]
    [Column.mk "ID" "int", Column.mk "age" "int", Column.mk "active" "bool"]
    [("active", .vBool true)] "zzz" (.vInt 1) [] "ID" (.vInt 1) "int"
    (.vInt 1) (by rfl) (by rfl) (by rfl) (by rfl)
    (fun p hp => by
      rw [List.mem_singleton] at hp
      subst hp
      exact ⟨"bool", .vBool true, rfl, rfl⟩)
    (by rfl)⟩

/-- C7: coercion to `int` rejects every boolean, parses ints and parsable
strings, and fails otherwise; coercion to `bool` passes booleans through,
maps strings case-insensitively through the fixed truthy/falsy token sets
(with localized words), and fails on anything else; coercion to `str`
returns the textual form of any input; an unsupported type name always
fails. -/
theorem coerce_value_spec :
    (∀ b, _coerce_value "int" (.vBool b) =
       .error (.invalidValue (pyStr (.vBool b)) "Ожидалось int")) ∧
    (∀ n, _coerce_value "int" (.vInt n) = .ok (.vInt n)) ∧
    (∀ s n, parseIntStr s = some n →
       _coerce_value "int" (.vStr s) = .ok (.vInt n)) ∧
    (∀ s, parseIntStr s = none →
       _coerce_value "int" (.vStr s) =
         .error (.invalidValue s "Ожидалось int")) ∧
    (∀ b, _coerce_value "bool" (.vBool b) = .ok (.vBool b)) ∧
    (∀ s, trueTokens.contains (pyLower (pyStrip s)) = true →
       _coerce_value "bool" (.vStr s) = .ok (.vBool true)) ∧
    (∀ s, trueTokens.contains (pyLower (pyStrip s)) = false →
       falseTokens.contains (pyLower (pyStrip s)) = true →
       _coerce_value "bool" (.vStr s) = .ok (.vBool false)) ∧
    (∀ s, trueTokens.contains (pyLower (pyStrip s)) = false →
       falseTokens.contains (pyLower (pyStrip s)) = false →
       _coerce_value "bool" (.vStr s) =
         .error (.invalidValue s "Ожидалось bool")) ∧
    (∀ n, _coerce_value "bool" (.vInt n) =
       .error (.invalidValue (pyStr (.vInt n)) "Ожидалось bool")) ∧
    (∀ v, _coerce_value "str" v = .ok (.vStr (pyStr v))) ∧
    (∀ ty v, isSupportedType ty = false →
       _coerce_value ty v = .error (.invalidValue ty "Неподдерживаемый тип")) := by
  refine ⟨?_, ?_, ?_, ?_, ?_, ?_, ?_, ?_, ?_, ?_, ?_⟩
  · intro b; rfl
  · intro n; rfl
  · intro s n h
    simp [_coerce_value, h, show isSupportedType "int" = true from rfl]
  · intro s h
    simp [_coerce_value, h, show isSupportedType "int" = true from rfl]
  · intro b; rfl
  · intro s h
    have h' : pyLower (pyStrip s) ∈ trueTokens := by simpa using h
    simp [_coerce_value, h', show isSupportedType "bool" = true from rfl]
  · intro s h1 h2
    have h1' : pyLower (pyStrip s) ∉ trueTokens := by simpa using h1
    have h2' : pyLower (pyStrip s) ∈ falseTokens := by simpa using h2
    simp [_coerce_value, h1', h2',
      show isSupportedType "bool" = true from rfl]
  · intro s h1 h2
    have h1' : pyLower (pyStrip s) ∉ trueTokens := by simpa using h1
    have h2' : pyLower (pyStrip s) ∉ falseTokens := by simpa using h2
    simp [_coerce_value, h1', h2',
      show isSupportedType "bool" = true from rfl]
  · intro n; rfl
  · intro v; cases v <;> rfl
  · intro ty v h; simp [_coerce_value, h]

/-- C7 witness: concrete coercions — whitespace-padded "42" parses to 42,
"YES" is truthy for bool, and type name "float" is unsupported. -/
theorem coerce_value_spec_witness :
    _coerce_value "int" (.vStr " 42 ") = .ok (.vInt 42) ∧
    _coerce_value "bool" (.vStr "YES") = .ok (.vBool true) ∧
    _coerce_value "float" (.vInt 1) =
      .error (.invalidValue "float" "Неподдерживаемый тип") :=
  ⟨coerce_value_spec.2.2.1 " 42 " 42 (by rfl),
   coerce_value_spec.2.2.2.2.2.1 "YES" (by rfl),
   coerce_value_spec.2.2.2.2.2.2.2.2.2.2 "float" (.vInt 1) (by rfl)⟩

/-- C8 counterexample: a failing `create_table` still mutates the
metadata dict it received — `_normalize_meta` runs first and inserts the
missing `"tables"` key (`\x7b\x7d` → `\x7b"tables": \x7b\x7d\x7d`) before the
name validation raises, so the metadata is not exactly as before. -/
theorem create_table_error_mutates_meta :
    create_table none "1x" [] =
      .error (.invalidValue "1x" "Плохое имя таблицы", []) ∧
    create_table_metaAfter none "1x" [] = some [] ∧
    (create_table_metaAfter none "1x" []).isNone = false := by
  exact ⟨by rfl, by rfl, by rfl⟩

/-- C8 (amended): every failing CRUD operation leaves the row list it
received unchanged, and the table map unchanged up to normalization (the
empty `"tables"` container may be added to a metadata dict lacking it):
errors of `insert_record` and `update_records` carry back exactly the
input rows, errors of `create_table` and `drop_table` carry back exactly
the normalized input table map, and in particular an insert with a wrong
value count fails `InvalidValue` with the rows untouched
(`delete_records` builds fresh lists and never mutates its input). -/
theorem failing_ops_preserve_state :
    (∀ meta t values rows e rows',
       insert_record meta t values rows = .error (e, rows') →
       rows' = rows) ∧
    (∀ meta t rows sc wc e rows',
       update_records meta t rows sc wc = .error (e, rows') →
       rows' = rows) ∧
    (∀ meta t specs e m',
       create_table meta t specs = .error (e, m') →
       m' = normalizeMeta meta) ∧
    (∀ meta t e m',
       drop_table meta t = .error (e, m') → m' = normalizeMeta meta) ∧
    insert_record meta1 "t" [] [[("a", .vStr "x"), ("ID", .vInt 1)]] =
      .error (.invalidValue (pyReprList [])
                "Неверное количество значений для insert",
              [[("a", .vStr "x"), ("ID", .vInt 1)]]) := by
  refine ⟨?_, ?_, ?_, ?_, by rfl⟩
  · intro meta t values rows e rows' h
    exact insert_record_error_rows meta t values rows rows' e h
  · intro meta t rows sc wc e rows' h
    exact update_records_error_rows meta t rows rows' sc wc e h
  · intro meta t specs e m' h
    exact create_table_error_meta meta t specs m' e h
  · intro meta t e m' h
    exact drop_table_error_meta meta t m' e h

/-- C8 witness: a failing update on an unknown table carries back exactly
the row list it was given. -/
theorem failing_ops_preserve_state_witness :
    ∃ e rows',
      update_records none "t" [r41] [("age", .vInt 1)] [] =
        .error (e, rows') ∧ rows' = [r41] :=
  ⟨.keyError "t", [r41], by rfl,
   failing_ops_preserve_state.2.1 none "t" [r41] [("age", .vInt 1)] []
     (.keyError "t") [r41] (by rfl)⟩

/-- C9: the cacher computes and stores on the first call with a key, and
every later call with an equal key — also after arbitrary intervening
calls with other keys — returns the stored result without invoking the
compute function (the returned flag records whether it was invoked). -/
theorem cacher_spec :
    (∀ cache k f, cacheGet cache k = none →
       cache_result cache k f = (f (), cache ++ [(k, f ())], true)) ∧
    (∀ cache k f v, cacheGet cache k = some v →
       cache_result cache k f = (v, cache, false)) ∧
    (∀ cache k v calls g, cacheGet cache k = some v →
       cache_result (runCalls calls cache) k g =
         (v, runCalls calls cache, false)) := by
  refine ⟨?_, ?_, ?_⟩
  · intro cache k f h
    simp [cache_result, h]
  · intro cache k f v h
    simp [cache_result, h]
  · intro cache k v calls g h
    have hpres := runCalls_preserved calls cache k v h
    simp [cache_result, hpres]

/-- C9 witness: a fresh key is computed, stored, and the repeated call
returns the stored rows without invoking the new compute function. -/
theorem cacher_spec_witness :
    cache_result [] ("users", "None", 5) (fun _ => [r41]) =
      ([r41], [(("users", "None", 5), [r41])], true) ∧
    cache_result [(("users", "None", 5), [r41])] ("users", "None", 5)
        (fun _ => []) =
      ([r41], [(("users", "None", 5), [r41])], false) :=
  ⟨cacher_spec.1 [] ("users", "None", 5) (fun _ => [r41]) (by rfl),
   cacher_spec.2.1 [(("users", "None", 5), [r41])] ("users", "None", 5)
     (fun _ => []) [r41] (by rfl)⟩

/-- C10 counterexample: a token-form insert in which every declared
non-ID column is present still fails `InvalidValue` when one of the
supplied values cannot be coerced, so "fails with InvalidValue exactly
when some declared column is missing" is too strong. -/
theorem insert_kv_coercion_counterexample :
    firstMissing ["age", "active"]
        [("age", .vStr "xyz"), ("active", .vBool true)] = none ∧
    _handle_insert_kv (normalizeMeta meta4) "users"
        [("age", .vStr "xyz"), ("active", .vBool true)] [] =
      .error (.invalidValue "xyz" "Ожидалось int") := by
  exact ⟨by rfl, by rfl⟩

/-- C10 (amended): the token-form insert fails
`InvalidValue("Все поля обязательны")` whenever some declared non-ID
column is missing from the pairs (reporting the first such column); when
all are present the values are taken from the pairs in declared column
order and inserted positionally — pairs keyed `ID` or by undeclared
names are silently ignored and never appear in the inserted row — and
the command can then still fail only inside `insert_record` (e.g. a
value that does not coerce). -/
theorem insert_kv_spec :
    (∀ m t kv rows uc c, _user_columns_for_table m t = .ok uc →
       firstMissing uc kv = some c →
       _handle_insert_kv m t kv rows =
         .error (.invalidValue c "Все поля обязательны")) ∧
    (∀ m t kv rows uc, _user_columns_for_table m t = .ok uc →
       firstMissing uc kv = none →
       _handle_insert_kv m t kv rows =
         projErr (insert_record (some m) t
           (uc.map (fun c => (alistGet kv c).getD (.vInt 0))) rows)) ∧
    (∀ m t kv rows rows' nid uc cols,
       _user_columns_for_table m t = .ok uc →
       _schema_columns (some m) t = .ok cols →
       _handle_insert_kv m t kv rows = .ok (rows', nid) →
       ∃ rec, rows' = rows ++ [rec] ∧
         ∀ x ∈ rec.map Prod.fst,
           x = ID_COLUMN ∨
             x ∈ (cols.map Column.name).filter (fun n => n != ID_COLUMN)) := by
  refine ⟨?_, ?_, ?_⟩
  · intro m t kv rows uc c h1 h2
    simp [_handle_insert_kv, h1, buildInsertValues_missing uc kv c h2]
  · intro m t kv rows uc h1 h2
    simp [_handle_insert_kv, h1, buildInsertValues_complete uc kv h2]
  · intro m t kv rows rows' nid uc cols h1 hc h
    simp only [_handle_insert_kv, h1] at h
    cases hb : buildInsertValues uc kv with
    | error e =>
        simp only [hb] at h
        exact absurd h (by simp)
    | ok vals =>
        simp only [hb] at h
        cases hi : insert_record (some m) t vals rows with
        | error p =>
            simp only [hi, projErr] at h
            exact absurd h (by simp)
        | ok pr =>
            simp only [hi, projErr, Except.ok.injEq] at h
            rw [h] at hi
            obtain ⟨_, rec, hrows, _, hkeys⟩ :=
              insert_record_ok_char (some m) t vals rows rows' nid cols hc hi
            exact ⟨rec, hrows, hkeys⟩

/-- C10 witness: with all declared columns present, the values are taken
from the pairs in declared order; the extra pair `zzz` and the pair keyed
`ID` are ignored. -/
theorem insert_kv_spec_witness :
    _handle_insert_kv (normalizeMeta meta4) "users"
        [("active", .vBool true), ("age", .vInt 3), ("zzz", .vInt 9),
         ("ID", .vInt 77)] [] =
      projErr (insert_record (some (normalizeMeta meta4)) "users"
        (["age", "active"].map
          (fun c => (alistGet
            [("active", .vBool true), ("age", .vInt 3), ("zzz", .vInt 9),
             ("ID", .vInt 77)] c).getD (.vInt 0))) []) :=
  insert_kv_spec.2.1 (normalizeMeta meta4) "users"
    [("active", .vBool true), ("age", .vInt 3), ("zzz", .vInt 9),
     ("ID", .vInt 77)] [] ["age", "active"] (by rfl) (by rfl)

/-- C1: the select branch of `run` is the only command dispatch not
wrapped by `handle_db_errors`; a select whose where-clause names an
undeclared column, or carries a value not coercible to the column's
type, raises out of `run` and terminates the loop instead of being
rendered — while the same failure in a wrapped handler (here: update) is
caught, rendered as the localized message, and the loop continues. -/
theorem select_error_escapes_loop :
    execCommand "y" cmdBadCol st1 =
      (st1, [], .crash (.keyError "nosuch")) ∧
    execCommand "y" cmdBadVal st1 =
      (st1, [], .crash (.invalidValue "abc" "Ожидалось int")) ∧
    execCommand "y"
        { name := "update", table := some "users",
          set_clause := some [("nosuch", .vInt 1)],
          where_clause := some [("ID", .vInt 1)] } st1 =
      (st1, ["Ошибка: Таблица или столбец \x27nosuch\x27 не найден."],
       .cont) := by
  exact ⟨by rfl, by rfl, by rfl⟩

theorem execCommand_wrapped_handlers_continue (answer : String)
    (st : DBState) (t : Option String) (cs : Option (List String))
    (vs : Option (List Value)) (sc wc : Option (List (String × Value))) :
    isCrash (execCommand answer
      { name := "help", table := t, columns := cs, values := vs,
        set_clause := sc, where_clause := wc } st).2.2 = false ∧
    isCrash (execCommand answer
      { name := "create_table", table := t, columns := cs, values := vs,
        set_clause := sc, where_clause := wc } st).2.2 = false ∧
    isCrash (execCommand answer
      { name := "list_tables", table := t, columns := cs, values := vs,
        set_clause := sc, where_clause := wc } st).2.2 = false ∧
    isCrash (execCommand answer
      { name := "drop_table", table := t, columns := cs, values := vs,
        set_clause := sc, where_clause := wc } st).2.2 = false ∧
    isCrash (execCommand answer
      { name := "info", table := t, columns := cs, values := vs,
        set_clause := sc, where_clause := wc } st).2.2 = false ∧
    isCrash (execCommand answer
      { name := "insert", table := t, columns := cs, values := vs,
        set_clause := sc, where_clause := wc } st).2.2 = false ∧
    isCrash (execCommand answer
      { name := "insert_kv", table := t, columns := cs, values := vs,
        set_clause := sc, where_clause := wc } st).2.2 = false ∧
    isCrash (execCommand answer
      { name := "update", table := t, columns := cs, values := vs,
        set_clause := sc, where_clause := wc } st).2.2 = false ∧
    isCrash (execCommand answer
      { name := "delete", table := t, columns := cs, values := vs,
        set_clause := sc, where_clause := wc } st).2.2 = false ∧
    isCrash (execCommand answer
      { name := "exit", table := t, columns := cs, values := vs,
        set_clause := sc, where_clause := wc } st).2.2 = false :=
  ⟨rfl, rfl, rfl, rfl, rfl, rfl, rfl, rfl, rfl, rfl⟩

end PrimitiveDB
